import Mathlib

/-!
Shallow embedding of the message-processing worker in
`internal/handlers/workers/message_handlers.go` of prefeitura-rio/ai-gateway.

Go's dynamic `interface{}` values (as produced by `encoding/json.Unmarshal`
together with the integer values the code constructs itself) are modelled by
`GoVal`; Go maps `map[string]interface{}` are association lists accessed
through `getKey` (two-value lookup), `goGet` (single-value lookup, `nil` on a
missing key) and `setKey` (map assignment).  The JSON decoder of the standard
library is an oracle parameter (`jparse`), the random step-id generator and
the clock are parameters as well.  External capabilities (engine, transcriber,
formatter) are records of functions; the calls the pipeline actually performs
are collected in a `CallEv` trace so that "capability X is not invoked" is a
statement about the model.
-/

namespace AiGateway

/-- Dynamic Go value as it appears in the handler's untyped maps.  `int`
models a Go `int`, `float` a Go `float64` (its payload modelled exactly as a
rational; the claims only move these values around). -/
inductive GoVal where
  | null : GoVal
  | bool (b : Bool) : GoVal
  | int (n : Int) : GoVal
  | float (q : ℚ) : GoVal
  | str (s : String) : GoVal
  | arr (xs : List GoVal) : GoVal
  | obj (fields : List (String × GoVal)) : GoVal

abbrev GoFields := List (String × GoVal)

/-- Two-value Go map lookup `v, ok := m[k]`: `some v` iff the key is present. -/
def getKey : GoFields → String → Option GoVal
  | [], _ => none
  | (k', v) :: rest, k => if k' = k then some v else getKey rest k

/-- Single-value Go map lookup `m[k]`: the zero value `nil` on a missing key. -/
def goGet (fs : GoFields) (k : String) : GoVal :=
  (getKey fs k).getD .null

/-- Go map assignment `m[k] = v`: replaces the binding if present, else adds it. -/
def setKey : GoFields → String → GoVal → GoFields
  | [], k, v => [(k, v)]
  | (k', v') :: rest, k, v =>
      if k' = k then (k, v) :: rest else (k', v') :: setKey rest k v

/-- Field lookup on a dynamic value: `some` only for objects holding the key. -/
def GoVal.getField : GoVal → String → Option GoVal
  | .obj fs, k => getKey fs k
  | _, _ => none

@[simp]
theorem getKey_setKey_self (fs : GoFields) (k : String) (v : GoVal) :
    getKey (setKey fs k v) k = some v := by
  induction fs with
  | nil => simp [getKey, setKey]
  | cons hd tl ih =>
      obtain ⟨k', v'⟩ := hd
      by_cases h : k' = k <;> simp [getKey, setKey, h, ih]

theorem getKey_setKey_ne (fs : GoFields) {k k' : String} (v : GoVal)
    (h : k' ≠ k) : getKey (setKey fs k v) k' = getKey fs k' := by
  induction fs with
  | nil => simp [getKey, setKey, Ne.symm h]
  | cons hd tl ih =>
      obtain ⟨k₀, v₀⟩ := hd
      by_cases h₀ : k₀ = k
      · subst h₀
        simp [getKey, setKey, Ne.symm h]
      · by_cases h₁ : k₀ = k'
        · subst h₁
          simp [getKey, setKey, h₀]
        · simp [getKey, setKey, h₀, h₁, ih]

/-- Inbound unit of work (`models.QueueMessage`), fields as read by the handler. -/
structure QueueMessage where
  id : String
  userNumber : String
  message : String
  previousMessage : Option String
  provider : String
  msgType : String

/-- Raw engine reply (`models.AgentResponse`); the pipeline reads `content`. -/
structure AgentResponse where
  content : String
  messageID : String
  threadID : String

/-- `MessageFormatterInterface`: `validateMessageContent` returns `some err`
on a validation error, `formatForWhatsApp` may fail. -/
structure MessageFormatter where
  formatForWhatsApp : AgentResponse → Except String String
  formatErrorMessage : String → String
  validateMessageContent : String → Option String

/-- The engine capability used by the pipeline
(`services.GoogleAgentEngineService`). -/
structure GoogleAgentEngine where
  getOrCreateThread : String → Except String String
  sendMessage : String → String → Except String AgentResponse

/-- External calls the pipeline performs, collected as a trace. -/
inductive CallEv where
  | getThread (userNumber : String)
  | sendMsg (threadID text : String)
  | transcribeCall (audioURL : String)
  | formatCall (content : String)

/-- `MessageHandlerDependencies` plus the oracles the Go code takes from the
runtime: `jparse` models `encoding/json.Unmarshal` applied to a string
(`none` = syntactically invalid JSON), `genStep` the random step-id source
(one fresh string per transformed entry), `now` the formatted clock value. -/
structure Deps where
  googleAgent : Option GoogleAgentEngine
  transcribe : Option (String → Except String String)
  formatter : Option MessageFormatter
  jparse : String → Option GoVal
  genStep : Nat → String
  now : String

/-- Audio extensions checked by `isAudioURL` (message_handlers.go:178). -/
def audioExtensions : List String :=
  [".mp3", ".wav", ".m4a", ".aac", ".ogg", ".flac", ".wma"]

/-- `isAudioURL` (message_handlers.go:177-185): `strings.HasSuffix` of
`strings.ToLower(url)` against each extension, expressed on character
lists. -/
def isAudioURL (url : String) : Bool :=
  audioExtensions.any fun ext => ext.data.isSuffixOf (url.data.map Char.toLower)

/-- Unicode white space, as recognised by Go's `unicode.IsSpace`. -/
def goIsSpace (c : Char) : Bool :=
  c ∈ ['\t', '\n', Char.ofNat 0x0B, Char.ofNat 0x0C, '\r', ' ',
       Char.ofNat 0x85, Char.ofNat 0xA0, Char.ofNat 0x1680,
       Char.ofNat 0x2000, Char.ofNat 0x2001, Char.ofNat 0x2002,
       Char.ofNat 0x2003, Char.ofNat 0x2004, Char.ofNat 0x2005,
       Char.ofNat 0x2006, Char.ofNat 0x2007, Char.ofNat 0x2008,
       Char.ofNat 0x2009, Char.ofNat 0x200A, Char.ofNat 0x2028,
       Char.ofNat 0x2029, Char.ofNat 0x202F, Char.ofNat 0x205F,
       Char.ofNat 0x3000]

/-- Go's `strings.TrimSpace` on the character list of a string. -/
def goTrim (l : List Char) : List Char :=
  ((l.dropWhile goIsSpace).reverse.dropWhile goIsSpace).reverse

/-- `strings.TrimSpace`. -/
def goTrimString (s : String) : String :=
  ⟨goTrim s.data⟩

/-- The payload cleaning of message_handlers.go:271-273:
`ReplaceAll "\n" ""`, then `ReplaceAll "\r" ""`, then `TrimSpace`. -/
def cleanPayload (s : String) : String :=
  goTrimString ⟨(s.data.filter fun c => c != '\n').filter fun c => c != '\r'⟩

/-- The fallback literal used when transcription cannot produce a usable
result (message_handlers.go:224,230,237). -/
def fallbackText : String := "Ajuda"

/-- The "no recognizable audio content" sentinel (message_handlers.go:231). -/
def noAudioSentinel : String := "Áudio sem conteúdo reconhecível"

/-- The audio gate of `processUserMessage` (message_handlers.go:212-240):
returns the effective message text, the recorded transcript (if any) and the
trace of transcription calls. -/
def resolveMessageText (transcribe : Option (String → Except String String))
    (message : String) : String × Option String × List CallEv :=
  if isAudioURL message then
    match transcribe with
    | none => (fallbackText, none, [])
    | some tsvc =>
        match tsvc message with
        | .error _ => (fallbackText, none, [.transcribeCall message])
        | .ok transcript =>
            if transcript ≠ "" ∧ goTrimString transcript ≠ "" ∧
                transcript ≠ noAudioSentinel then
              (transcript, some transcript, [.transcribeCall message])
            else
              (fallbackText, none, [.transcribeCall message])
  else
    (message, none, [])

/-- `extractModelName` (message_handlers.go:441-448). -/
def extractModelName (msgMap : GoFields) : GoVal :=
  match getKey msgMap "response_metadata" with
  | some (.obj rm) =>
      match getKey rm "model_name" with
      | some v => v
      | none => .null
  | _ => .null

/-- `extractFinishReason` (message_handlers.go:450-457). -/
def extractFinishReason (msgMap : GoFields) : GoVal :=
  match getKey msgMap "response_metadata" with
  | some (.obj rm) =>
      match getKey rm "finish_reason" with
      | some v => v
      | none => .null
  | _ => .null

/-- `extractAvgLogprobs` (message_handlers.go:459-466). -/
def extractAvgLogprobs (msgMap : GoFields) : GoVal :=
  match getKey msgMap "response_metadata" with
  | some (.obj rm) =>
      match getKey rm "avg_logprobs" with
      | some v => v
      | none => .null
  | _ => .null

/-- The guarded conversion pattern of `extractUsageMetadata`: when a looked
up value exists and passes the `.(int)` type assertion, overwrite `key` with
its `float64` conversion; otherwise leave the record alone
(message_handlers.go:480-511). -/
def intOverwrite (fs : GoFields) (key : String) (v : Option GoVal) :
    GoFields :=
  match v with
  | some (.int n) => setKey fs key (.float n)
  | _ => fs

/-- The same pattern behind a nested-details map lookup
(message_handlers.go:480-494): the outer key must exist as a map before the
inner value is examined. -/
def nestedIntOverwrite (fs : GoFields) (key : String) (um : GoFields)
    (outerKey innerKey : String) : GoFields :=
  match getKey um outerKey with
  | some (.obj details) => intOverwrite fs key (getKey details innerKey)
  | _ => fs

/-- `extractUsageMetadata` (message_handlers.go:468-518).  A type assertion
`x.(int)` succeeds exactly on `GoVal.int`; `float64(n)` is the rational cast. -/
def extractUsageMetadata (msgMap : GoFields) : GoVal :=
  match getKey msgMap "response_metadata" with
  | some (.obj rm) =>
      match getKey rm "usage_metadata" with
      | some (.obj usage) =>
          let result : GoFields :=
            [("prompt_token_count", goGet usage "input_tokens"),
             ("candidates_token_count", goGet usage "output_tokens"),
             ("total_token_count", goGet usage "total_tokens")]
          let result := nestedIntOverwrite result "thoughts_token_count"
            usage "output_token_details" "reasoning"
          let result := nestedIntOverwrite result "cached_content_token_count"
            usage "input_token_details" "cache_read"
          let result := intOverwrite result "prompt_token_count"
            (getKey usage "input_tokens")
          let result := intOverwrite result "candidates_token_count"
            (getKey usage "output_tokens")
          let result := intOverwrite result "total_token_count"
            (getKey usage "total_tokens")
          .obj result
      | _ => .null
  | _ => .null

/-- `mapMessageType` (message_handlers.go:520-540). -/
def mapMessageType (msgMap : GoFields) : String :=
  match getKey msgMap "type" with
  | some (.str msgType) =>
      if msgType = "human" then "user_message"
      else if msgType = "ai" then
        match getKey msgMap "tool_calls" with
        | some (.arr toolCalls) =>
            if toolCalls.length > 0 then "tool_call_message"
            else "assistant_message"
        | _ => "assistant_message"
      else if msgType = "tool" then "tool_return_message"
      else "user_message"
  | _ => "user_message"

/-- The fixed field projection built for every object entry
(message_handlers.go:377-393). -/
def transformBase (genStep : Nat → String) (i : Nat) (msgMap : GoFields) : GoFields :=
  [("id", goGet msgMap "id"),
   ("date", .null),
   ("session_id", .null),
   ("time_since_last_message", .null),
   ("name", goGet msgMap "name"),
   ("otid", goGet msgMap "id"),
   ("sender_id", .null),
   ("step_id", .str ("step-" ++ genStep i)),
   ("is_err", .null),
   ("model_name", extractModelName msgMap),
   ("finish_reason", extractFinishReason msgMap),
   ("avg_logprobs", extractAvgLogprobs msgMap),
   ("usage_metadata", extractUsageMetadata msgMap),
   ("message_type", .str (mapMessageType msgMap)),
   ("content", goGet msgMap "content")]

/-- Loop body of `transformGoogleAgentMessages` (message_handlers.go:370-418):
transforms one entry of the messages list; non-object entries are skipped
(`none`).  `i` indexes the `generateStepID` call this entry performs; the
type-specific additions are message_handlers.go:396-416. -/
def transformEntry (genStep : Nat → String) (i : Nat) : GoVal → Option GoVal
  | .obj msgMap =>
      let base : GoFields := transformBase genStep i msgMap
      let withExtra : GoFields :=
        if mapMessageType msgMap = "tool_call_message" then
          match getKey msgMap "tool_calls" with
          | some (.arr (toolCall :: _)) =>
              match toolCall with
              | .obj tc =>
                  setKey base "tool_call"
                    (.obj [("name", goGet tc "name"),
                           ("arguments", goGet tc "args"),
                           ("tool_call_id", goGet tc "id")])
              | _ => base
          | _ => base
        else if mapMessageType msgMap = "tool_return_message" then
          match getKey msgMap "name" with
          | some name =>
              setKey (setKey (setKey (setKey (setKey (setKey base
                "tool_return" (goGet msgMap "content"))
                "status" (.str "success"))
                "tool_call_id" (goGet msgMap "tool_call_id"))
                "stdout" .null)
                "stderr" .null)
                "name" name
          | none => base
        else base
      some (.obj withExtra)
  | _ => none

/-- The transformation loop (message_handlers.go:370-419); the step-id
counter advances only when an entry is transformed, matching the
`generateStepID` calls of the source. -/
def transformEntries (genStep : Nat → String) (i : Nat) : List GoVal → List GoVal
  | [] => []
  | v :: rest =>
      match transformEntry genStep i v with
      | some t => t :: transformEntries genStep (i + 1) rest
      | none => transformEntries genStep i rest

/-- The trailing usage-statistics record (message_handlers.go:422-434). -/
def usageStatsObj (now : String) (stepCount : Nat) : GoVal :=
  .obj [("message_type", .str "usage_statistics"),
        ("completion_tokens", .int 0),
        ("prompt_tokens", .int 0),
        ("total_tokens", .int 0),
        ("step_count", .int stepCount),
        ("steps_messages", .null),
        ("run_ids", .null),
        ("agent_id", .str ""),
        ("processed_at", .str now),
        ("status", .str "done"),
        ("model_names", .arr [])]

/-- `transformGoogleAgentMessages` (message_handlers.go:354-438).  The Go
type switch sends a `nil` interface to the `default` branch, which returns
the (empty) accumulator without appending the usage record; a slice is
ranged over; any other non-nil value is wrapped as a singleton list. -/
def transformGoogleAgentMessages (genStep : Nat → String) (now : String) :
    GoVal → List GoVal
  | .null => []
  | .arr xs =>
      let ts := transformEntries genStep 0 xs
      ts ++ [usageStatsObj now ts.length]
  | v =>
      let ts := transformEntries genStep 0 [v]
      ts ++ [usageStatsObj now ts.length]

/-- The agent-id stamping applied to one message (message_handlers.go:313-317):
only an object whose `message_type` compares equal to the string
`"usage_statistics"` gets its `agent_id` overwritten. -/
def stampOne (agentID : String) (m : GoVal) : GoVal :=
  match m with
  | .obj fs =>
      match getKey fs "message_type" with
      | some (.str t) =>
          if t = "usage_statistics" then .obj (setKey fs "agent_id" (.str agentID))
          else m
      | _ => m
  | _ => m

/-- Agent-id stamping of the last transformed message
(message_handlers.go:312-318); an empty list is left alone. -/
def stampLast (agentID : String) : List GoVal → List GoVal
  | [] => []
  | [m] => [stampOne agentID m]
  | m :: rest => m :: stampLast agentID rest

/-- Body of the formatting loop (message_handlers.go:556-578): a message is
formatted only when it is an object whose `content` is a non-empty string; a
formatting error falls back to the original content.  Also returns the trace
of formatting calls this message caused. -/
def formatOne (f : MessageFormatter) (m : GoVal) : GoVal × List CallEv :=
  match m with
  | .obj fs =>
      match getKey fs "content" with
      | some (.str content) =>
          if content ≠ "" then
            let formattedContent :=
              match f.formatForWhatsApp ⟨content, "temp", "temp"⟩ with
              | .ok fc => fc
              | .error _ => content
            (.obj (setKey fs "content" (.str formattedContent)),
             [.formatCall content])
          else (m, [])
      | _ => (m, [])
  | _ => (m, [])

/-- The formatting loop over the message list. -/
def formatMessages (f : MessageFormatter) : List GoVal → List GoVal × List CallEv
  | [] => ([], [])
  | m :: rest =>
      let r := formatOne f m
      let rr := formatMessages f rest
      (r.1 :: rr.1, r.2 ++ rr.2)

/-- `applyWhatsAppFormattingToMessages` (message_handlers.go:550-580): with no
formatter every message passes through unchanged and no call is made. -/
def applyWhatsAppFormattingToMessages (formatter : Option MessageFormatter)
    (messages : List GoVal) : List GoVal × List CallEv :=
  match formatter with
  | none => (messages, [])
  | some f => formatMessages f messages

/-- `models.ProcessedMessageData`, the final artifact
(message_handlers.go:324-329). -/
structure ProcessedMessageData where
  messages : List GoVal
  agentID : String
  processedAt : String
  status : String

/-- The optional content validation (message_handlers.go:243-248). -/
def validateContent (formatter : Option MessageFormatter) (message : String) :
    Option String :=
  match formatter with
  | some f => f.validateMessageContent message
  | none => none

/-- Post-parse assembly (message_handlers.go:298-329): transform the
(possibly absent) `messages` value, stamp the agent id, run the formatting
gate, and assemble the artifact. -/
def buildProcessedData (deps : Deps) (msg : QueueMessage)
    (messagesOpt : Option GoVal) : ProcessedMessageData × List CallEv :=
  let transformedMessages :=
    match messagesOpt with
    | some messagesArray =>
        transformGoogleAgentMessages deps.genStep deps.now messagesArray
    | none => []
  let agentID := "user_" ++ msg.userNumber
  let stamped := stampLast agentID transformedMessages
  let fm := applyWhatsAppFormattingToMessages deps.formatter stamped
  (⟨fm.1, agentID, msg.id, "done"⟩, fm.2)

/-- Parse stage and artifact assembly (message_handlers.go:270-336): clean
the raw payload, decode it into a string-keyed map (a decode of anything but
an object fails, like `json.Unmarshal` into `map[string]interface{}`),
require a top-level `output` object, then build the artifact. -/
def parseAndBuild (deps : Deps) (msg : QueueMessage) (content : String) :
    Except String ProcessedMessageData × List CallEv :=
  let cleanedResponse := cleanPayload content
  match deps.jparse cleanedResponse with
  | some (.obj parsedResponse) =>
      match getKey parsedResponse "output" with
      | some (.obj outputMap) =>
          let bd := buildProcessedData deps msg (getKey outputMap "messages")
          (.ok bd.1, bd.2)
      | some _ =>
          (.error "invalid Google Agent Engine response format - 'output' is not an object", [])
      | none =>
          (.error "invalid Google Agent Engine response format - missing 'output' field", [])
  | _ => (.error "failed to parse AI response JSON", [])

/-- `processUserMessage` (message_handlers.go:188-351), returning the
assembled artifact (serialization of which cannot fail on these values) or
the error the Go function returns, together with the trace of external
calls. -/
def processUserMessage (msg : QueueMessage) (deps : Deps) :
    Except String ProcessedMessageData × List CallEv :=
  if msg.provider ≠ "google_agent_engine" then
    (.error ("unsupported provider: " ++ msg.provider ++
      " (currently only 'google_agent_engine' is supported)"), [])
  else
    match deps.googleAgent with
    | none => (.error "google Agent Engine service is required but not available", [])
    | some engine =>
        let r := resolveMessageText deps.transcribe msg.message
        let message := r.1
        let tr := r.2.2
        match validateContent deps.formatter message with
        | some err => (.error ("invalid message content: " ++ err), tr)
        | none =>
            match engine.getOrCreateThread msg.userNumber with
            | .error e =>
                (.error ("failed to get thread: " ++ e),
                 tr ++ [.getThread msg.userNumber])
            | .ok threadID =>
                match engine.sendMessage threadID message with
                | .error e =>
                    (.error ("failed to get AI response: " ++ e),
                     tr ++ [.getThread msg.userNumber, .sendMsg threadID message])
                | .ok agentResponse =>
                    let pb := parseAndBuild deps msg agentResponse.content
                    (pb.1,
                     tr ++ [.getThread msg.userNumber, .sendMsg threadID message]
                        ++ pb.2)

/-- Task lifecycle statuses (`models.TaskStatus*`). -/
inductive TaskStatus where
  | processing
  | completed
  | failed
  deriving DecidableEq

/-- Observable outcome of one handler invocation: the value returned to the
queue layer (`none` = `nil`) and the store writes, in order. -/
structure HandlerOutcome where
  ret : Option String
  statusWrites : List TaskStatus
  errorWrite : Option (String × String)
  resultWrite : Option ProcessedMessageData

/-- The closure built by `CreateUserMessageHandler`
(message_handlers.go:95-174).  `bodyParse` is the `json.Unmarshal` oracle
applied to the delivery body.  Store-write failures are logged only and do
not alter control flow, so writes are recorded unconditionally. -/
def createUserMessageHandler (deps : Deps)
    (bodyParse : Except String QueueMessage) : HandlerOutcome :=
  match bodyParse with
  | .error e => ⟨some e, [], none, none⟩
  | .ok queueMsg =>
      match (processUserMessage queueMsg deps).1 with
      | .error e =>
          ⟨none, [.processing, .failed],
           some ("task:error:" ++ queueMsg.id, e), none⟩
      | .ok response =>
          ⟨none, [.processing, .completed], none, some response⟩

/-- Result of the guarded `.(int)` conversion the code applies to the three
top-level token counters: a Go `int` becomes `float64`, anything else is
left untouched. -/
def floatify : GoVal → GoVal
  | .int n => .float n
  | v => v

/-- What the nested-detail extraction of `extractUsageMetadata` produces for
one `outerKey.innerKey` path: a float only when the source value is a Go
`int`, nothing otherwise. -/
def nestedIntField (um : GoFields) (outerKey innerKey : String) :
    Option GoVal :=
  match getKey um outerKey with
  | some (.obj details) =>
      match getKey details innerKey with
      | some (.int n) => some (.float n)
      | _ => none
  | _ => none

/-! ### Helper lemmas -/

theorem transformEntry_fields (genStep : Nat → String) (i : Nat)
    (msgMap : GoFields) :
    ∃ fs, transformEntry genStep i (.obj msgMap) = some (.obj fs) ∧
      ∀ k, k ≠ "tool_call" → k ≠ "tool_return" → k ≠ "status" →
        k ≠ "tool_call_id" → k ≠ "stdout" → k ≠ "stderr" → k ≠ "name" →
        getKey fs k = getKey (transformBase genStep i msgMap) k := by
  unfold transformEntry
  refine ⟨_, rfl, ?_⟩
  intro k h1 h2 h3 h4 h5 h6 h7
  split_ifs
  · split
    · split
      · rw [getKey_setKey_ne _ _ h1]
      · rfl
    · rfl
  · split
    · rw [getKey_setKey_ne _ _ h7, getKey_setKey_ne _ _ h6,
        getKey_setKey_ne _ _ h5, getKey_setKey_ne _ _ h4,
        getKey_setKey_ne _ _ h3, getKey_setKey_ne _ _ h2]
    · rfl
  · rfl

theorem mapMessageType_cases (msgMap : GoFields) :
    mapMessageType msgMap = "user_message" ∨
    mapMessageType msgMap = "assistant_message" ∨
    mapMessageType msgMap = "tool_call_message" ∨
    mapMessageType msgMap = "tool_return_message" := by
  unfold mapMessageType
  repeat' split
  all_goals simp

theorem mapMessageType_ne_usage_statistics (msgMap : GoFields) :
    mapMessageType msgMap ≠ "usage_statistics" := by
  rcases mapMessageType_cases msgMap with h | h | h | h <;> simp [h]

theorem transformEntry_message_type (genStep : Nat → String) (i : Nat)
    (msgMap : GoFields) :
    ∃ fs, transformEntry genStep i (.obj msgMap) = some (.obj fs) ∧
      getKey fs "message_type" = some (.str (mapMessageType msgMap)) := by
  obtain ⟨fs, hfs, hget⟩ := transformEntry_fields genStep i msgMap
  refine ⟨fs, hfs, ?_⟩
  rw [hget "message_type" (by decide) (by decide) (by decide) (by decide)
    (by decide) (by decide) (by decide)]
  rfl

theorem mem_transformEntries {genStep : Nat → String} {i : Nat}
    {xs : List GoVal} {t : GoVal} (h : t ∈ transformEntries genStep i xs) :
    ∃ j msgMap, transformEntry genStep j (.obj msgMap) = some t := by
  induction xs generalizing i with
  | nil => simp [transformEntries] at h
  | cons v rest ih =>
      rw [transformEntries] at h
      rcases hv : transformEntry genStep i v with _ | t'
      · rw [hv] at h
        exact ih h
      · rw [hv] at h
        rcases List.mem_cons.mp h with rfl | hmem
        · cases v with
          | obj msgMap => exact ⟨i, msgMap, hv⟩
          | null => exact absurd hv (by simp [transformEntry])
          | bool b => exact absurd hv (by simp [transformEntry])
          | int n => exact absurd hv (by simp [transformEntry])
          | float q => exact absurd hv (by simp [transformEntry])
          | str s => exact absurd hv (by simp [transformEntry])
          | arr l => exact absurd hv (by simp [transformEntry])
        · exact ih hmem

theorem stampLast_append (agentID : String) (xs : List GoVal) (m : GoVal) :
    stampLast agentID (xs ++ [m]) = xs ++ [stampOne agentID m] := by
  induction xs with
  | nil => rfl
  | cons a tl ih => cases tl <;> simp_all [stampLast]

theorem stampOne_usageStatsObj (agentID now : String) (n : Nat) :
    stampOne agentID (usageStatsObj now n) =
      .obj [("message_type", .str "usage_statistics"),
            ("completion_tokens", .int 0),
            ("prompt_tokens", .int 0),
            ("total_tokens", .int 0),
            ("step_count", .int n),
            ("steps_messages", .null),
            ("run_ids", .null),
            ("agent_id", .str agentID),
            ("processed_at", .str now),
            ("status", .str "done"),
            ("model_names", .arr [])] := rfl

theorem formatOne_getField_ne (f : MessageFormatter) (m : GoVal) (k : String)
    (hk : k ≠ "content") : (formatOne f m).1.getField k = m.getField k := by
  unfold formatOne
  rcases m with _ | b | n | q | s | xs | fs
  all_goals try rfl
  dsimp only
  split
  · split_ifs
    · dsimp [GoVal.getField]
      rw [getKey_setKey_ne _ _ hk]
    · rfl
  · rfl

theorem formatOne_trace {f : MessageFormatter} {m : GoVal} {ev : CallEv}
    (h : ev ∈ (formatOne f m).2) :
    ∃ fs content, m = .obj fs ∧ getKey fs "content" = some (.str content) ∧
      content ≠ "" ∧ ev = .formatCall content := by
  rcases m with _ | b | n | q | s | xs | fs
  · exact absurd h (by simp [formatOne])
  · exact absurd h (by simp [formatOne])
  · exact absurd h (by simp [formatOne])
  · exact absurd h (by simp [formatOne])
  · exact absurd h (by simp [formatOne])
  · exact absurd h (by simp [formatOne])
  rcases hc : getKey fs "content" with _ | v
  · exact absurd h (by simp [formatOne, hc])
  · rcases v with _ | b | n | q | content | xs' | fs'
    · exact absurd h (by simp [formatOne, hc])
    · exact absurd h (by simp [formatOne, hc])
    · exact absurd h (by simp [formatOne, hc])
    · exact absurd h (by simp [formatOne, hc])
    · by_cases hne : content = ""
      · exact absurd h (by simp [formatOne, hc, hne])
      · have h2 : (formatOne f (.obj fs)).2 = [CallEv.formatCall content] := by
          simp [formatOne, hc, hne]
        rw [h2] at h
        rcases List.mem_singleton.mp h with rfl
        exact ⟨fs, content, rfl, hc, hne, rfl⟩
    · exact absurd h (by simp [formatOne, hc])
    · exact absurd h (by simp [formatOne, hc])

theorem formatMessages_fst (f : MessageFormatter) (msgs : List GoVal) :
    (formatMessages f msgs).1 = msgs.map fun m => (formatOne f m).1 := by
  induction msgs with
  | nil => rfl
  | cons m rest ih => simp [formatMessages, ih]

theorem formatMessages_trace {f : MessageFormatter} {msgs : List GoVal}
    {ev : CallEv} (h : ev ∈ (formatMessages f msgs).2) :
    ∃ m ∈ msgs, ev ∈ (formatOne f m).2 := by
  induction msgs with
  | nil => simp [formatMessages] at h
  | cons m rest ih =>
      rw [formatMessages] at h
      rcases List.mem_append.mp h with hm | hm
      · exact ⟨m, List.mem_cons_self m rest, hm⟩
      · obtain ⟨m', hm', hev⟩ := ih hm
        exact ⟨m', List.mem_cons_of_mem m hm', hev⟩

theorem resolveMessageText_trace
    {transcribe : Option (String → Except String String)} {message : String}
    {ev : CallEv} (h : ev ∈ (resolveMessageText transcribe message).2.2) :
    ∃ url, ev = .transcribeCall url := by
  unfold resolveMessageText at h
  split at h
  · split at h
    · simp at h
    · split at h
      · exact ⟨message, by rcases List.mem_singleton.mp h with rfl; rfl⟩
      · split at h <;>
          exact ⟨message, by rcases List.mem_singleton.mp h with rfl; rfl⟩
  · simp at h

theorem buildProcessedData_trace {deps : Deps} {msg : QueueMessage}
    {messagesOpt : Option GoVal} {ev : CallEv}
    (h : ev ∈ (buildProcessedData deps msg messagesOpt).2) :
    ∃ c, ev = .formatCall c := by
  unfold buildProcessedData at h
  rcases hf : deps.formatter with _ | f
  · rw [hf] at h
    simp [applyWhatsAppFormattingToMessages] at h
  · rw [hf] at h
    simp only [applyWhatsAppFormattingToMessages] at h
    obtain ⟨m, _, hev⟩ := formatMessages_trace h
    obtain ⟨fs, c, _, _, _, rfl⟩ := formatOne_trace hev
    exact ⟨c, rfl⟩

theorem parseAndBuild_trace {deps : Deps} {msg : QueueMessage}
    {content : String} {ev : CallEv}
    (h : ev ∈ (parseAndBuild deps msg content).2) :
    ∃ c, ev = .formatCall c := by
  simp only [parseAndBuild] at h
  split at h
  · split at h
    · exact buildProcessedData_trace h
    · simp at h
    · simp at h
  · simp at h

theorem processUserMessage_trace {msg : QueueMessage} {deps : Deps}
    {ev : CallEv} (h : ev ∈ (processUserMessage msg deps).2) :
    (∃ url, ev = .transcribeCall url) ∨ ev = .getThread msg.userNumber ∨
    (∃ t, ev = .sendMsg t (resolveMessageText deps.transcribe msg.message).1) ∨
    (∃ c, ev = .formatCall c) := by
  unfold processUserMessage at h
  dsimp only at h
  repeat' split at h
  all_goals dsimp only at h
  · exact absurd h (List.not_mem_nil ev)
  · exact absurd h (List.not_mem_nil ev)
  · exact .inl (resolveMessageText_trace h)
  · rcases List.mem_append.mp h with h1 | h1
    · exact .inl (resolveMessageText_trace h1)
    · rcases List.mem_singleton.mp h1 with rfl
      exact .inr (.inl rfl)
  · rcases List.mem_append.mp h with h1 | h1
    · exact .inl (resolveMessageText_trace h1)
    · rcases List.mem_cons.mp h1 with rfl | h2
      · exact .inr (.inl rfl)
      · rcases List.mem_singleton.mp h2 with rfl
        exact .inr (.inr (.inl ⟨_, rfl⟩))
  · rcases List.mem_append.mp h with h1 | h1
    · rcases List.mem_append.mp h1 with h2 | h2
      · exact .inl (resolveMessageText_trace h2)
      · rcases List.mem_cons.mp h2 with rfl | h3
        · exact .inr (.inl rfl)
        · rcases List.mem_singleton.mp h3 with rfl
          exact .inr (.inr (.inl ⟨_, rfl⟩))
    · exact .inr (.inr (.inr (parseAndBuild_trace h1)))

/-! ### Claim theorems -/

/-- C1: for every queue delivery whose body deserializes into a
`QueueMessage`, the handler returns `nil` to the queue layer even when
processing fails; on a processing error it writes the error text to the
error key and sets status `failed`, then returns `nil`; an error is returned
only when the delivery body fails to deserialize. -/
theorem C1_handler_error_policy (deps : Deps)
    (bodyParse : Except String QueueMessage) :
    (∀ queueMsg, bodyParse = .ok queueMsg →
      (createUserMessageHandler deps bodyParse).ret = none ∧
      ∀ e, (processUserMessage queueMsg deps).1 = .error e →
        (createUserMessageHandler deps bodyParse).errorWrite =
          some ("task:error:" ++ queueMsg.id, e) ∧
        (createUserMessageHandler deps bodyParse).statusWrites =
          [.processing, .failed]) ∧
    (∀ e, bodyParse = .error e →
      (createUserMessageHandler deps bodyParse).ret = some e) := by
  constructor
  · rintro queueMsg rfl
    constructor
    · rcases hp : (processUserMessage queueMsg deps).1 with e | pd <;>
        simp [createUserMessageHandler, hp]
    · intro e he
      simp [createUserMessageHandler, he]
  · rintro e rfl
    rfl

/-- Witness for C1: with no capabilities configured, provider `"x"` fails
processing; the handler acks (`ret = none`), records the error text under
the error key and sets status `failed`; a body that fails to deserialize
propagates its error. -/
theorem C1_handler_error_policy_witness :
    (createUserMessageHandler
        ⟨none, none, none, fun _ => none, fun _ => "", ""⟩
        (.ok ⟨"id1", "u", "hi", none, "x", "t"⟩)).ret = none ∧
    (createUserMessageHandler
        ⟨none, none, none, fun _ => none, fun _ => "", ""⟩
        (.ok ⟨"id1", "u", "hi", none, "x", "t"⟩)).errorWrite =
      some ("task:error:id1",
        "unsupported provider: x (currently only 'google_agent_engine' is supported)") ∧
    (createUserMessageHandler
        ⟨none, none, none, fun _ => none, fun _ => "", ""⟩
        (.ok ⟨"id1", "u", "hi", none, "x", "t"⟩)).statusWrites =
      [.processing, .failed] ∧
    (createUserMessageHandler
        ⟨none, none, none, fun _ => none, fun _ => "", ""⟩
        (.error "bad json")).ret = some "bad json" := by
  obtain ⟨h1, h2⟩ := C1_handler_error_policy
    ⟨none, none, none, fun _ => none, fun _ => "", ""⟩
    (.ok ⟨"id1", "u", "hi", none, "x", "t"⟩)
  obtain ⟨ha, hb⟩ := h1 _ rfl
  obtain ⟨hc, hd⟩ := hb _ rfl
  exact ⟨ha, hc, hd,
    (C1_handler_error_policy ⟨none, none, none, fun _ => none, fun _ => "", ""⟩
      (.error "bad json")).2 _ rfl⟩

/-- C2: a message whose provider differs from `"google_agent_engine"` aborts
with the descriptive error before any engine capability call — the trace is
empty, so neither `GetOrCreateThread` nor `SendMessage` is invoked — and the
handler records task status `failed`. -/
theorem C2_unsupported_provider_rejected (deps : Deps)
    (queueMsg : QueueMessage)
    (h : queueMsg.provider ≠ "google_agent_engine") :
    (processUserMessage queueMsg deps).1 =
      .error ("unsupported provider: " ++ queueMsg.provider ++
        " (currently only 'google_agent_engine' is supported)") ∧
    (processUserMessage queueMsg deps).2 = [] ∧
    (∀ u, CallEv.getThread u ∉ (processUserMessage queueMsg deps).2) ∧
    (∀ t m, CallEv.sendMsg t m ∉ (processUserMessage queueMsg deps).2) ∧
    (createUserMessageHandler deps (.ok queueMsg)).statusWrites =
      [.processing, .failed] := by
  have hp : processUserMessage queueMsg deps =
      (.error ("unsupported provider: " ++ queueMsg.provider ++
        " (currently only 'google_agent_engine' is supported)"), []) := by
    unfold processUserMessage
    rw [if_pos h]
  refine ⟨by rw [hp], by rw [hp], ?_, ?_, ?_⟩
  · intro u
    rw [hp]
    simp
  · intro t m
    rw [hp]
    simp
  · simp [createUserMessageHandler, hp]

/-- Witness for C2 at provider `"letta"`. -/
theorem C2_unsupported_provider_rejected_witness :
    (processUserMessage ⟨"id2", "u", "hi", none, "letta", "t"⟩
        ⟨none, none, none, fun _ => none, fun _ => "", ""⟩).2 = [] ∧
    (createUserMessageHandler ⟨none, none, none, fun _ => none, fun _ => "", ""⟩
        (.ok ⟨"id2", "u", "hi", none, "letta", "t"⟩)).statusWrites =
      [.processing, .failed] := by
  obtain ⟨_, h2, _, _, h5⟩ := C2_unsupported_provider_rejected
    ⟨none, none, none, fun _ => none, fun _ => "", ""⟩
    ⟨"id2", "u", "hi", none, "letta", "t"⟩ (by decide)
  exact ⟨h2, h5⟩

/-- C4: audio-reference texts (suffix match on the fixed extension list,
case-insensitive) resolve to the fixed fallback literal when the
transcription capability is unavailable, errors, or returns an empty,
whitespace-only or sentinel transcript, and to the transcript otherwise;
non-audio texts pass through unchanged; and every `SendMessage` call of the
pipeline carries exactly the gate's result as its text. -/
theorem C4_audio_gate_fallback
    (transcribe : Option (String → Except String String)) (text : String) :
    (isAudioURL text = false → (resolveMessageText transcribe text).1 = text) ∧
    (isAudioURL text = true → transcribe = none →
      (resolveMessageText transcribe text).1 = fallbackText) ∧
    (∀ tsvc e, isAudioURL text = true → transcribe = some tsvc →
      tsvc text = .error e →
      (resolveMessageText transcribe text).1 = fallbackText) ∧
    (∀ tsvc transcript, isAudioURL text = true → transcribe = some tsvc →
      tsvc text = .ok transcript →
      (transcript = "" ∨ goTrimString transcript = "" ∨
        transcript = noAudioSentinel) →
      (resolveMessageText transcribe text).1 = fallbackText) ∧
    (∀ tsvc transcript, isAudioURL text = true → transcribe = some tsvc →
      tsvc text = .ok transcript → transcript ≠ "" →
      goTrimString transcript ≠ "" → transcript ≠ noAudioSentinel →
      (resolveMessageText transcribe text).1 = transcript) ∧
    (∀ deps msg threadID sent,
      CallEv.sendMsg threadID sent ∈ (processUserMessage msg deps).2 →
      sent = (resolveMessageText deps.transcribe msg.message).1) := by
  refine ⟨?_, ?_, ?_, ?_, ?_, ?_⟩
  · intro hna
    simp [resolveMessageText, hna]
  · rintro ha rfl
    simp [resolveMessageText, ha]
  · rintro tsvc e ha rfl herr
    simp [resolveMessageText, ha, herr]
  · rintro tsvc transcript ha rfl hok hbad
    simp only [resolveMessageText, ha, if_true, hok]
    rw [if_neg]
    rcases hbad with rfl | hb | rfl
    · simp
    · simp [hb]
    · simp
  · rintro tsvc transcript ha rfl hok h1 h2 h3
    simp [resolveMessageText, ha, hok, h1, h2, h3]
  · intro deps msg threadID sent hmem
    rcases processUserMessage_trace hmem with ⟨url, hu⟩ | hu | ⟨t', hu⟩ | ⟨c, hu⟩
    · exact absurd hu (by simp)
    · exact absurd hu (by simp)
    · injection hu with h1 h2
    · exact absurd hu (by simp)

/-- Witness for C4: a usable transcript passes through, an empty transcript
falls back, a non-audio text is untouched. -/
theorem C4_audio_gate_fallback_witness :
    (resolveMessageText (some fun _ => .ok "ola") "http://x/voice.mp3").1 =
      "ola" ∧
    (resolveMessageText (some fun _ => .ok "") "http://x/voice.mp3").1 =
      fallbackText ∧
    (resolveMessageText none "hi").1 = "hi" := by
  refine ⟨?_, ?_, ?_⟩
  · exact (C4_audio_gate_fallback (some fun _ => .ok "ola")
      "http://x/voice.mp3").2.2.2.2.1 _ "ola" (by decide) rfl rfl
      (by decide) (by decide) (by decide)
  · exact (C4_audio_gate_fallback (some fun _ => .ok "")
      "http://x/voice.mp3").2.2.2.1 _ "" (by decide) rfl rfl (.inl rfl)
  · exact (C4_audio_gate_fallback none "hi").1 (by decide)

/-- C10: every transformed object entry carries an `otid` field equal to the
entry's `id` field, the same value emitted as the message's `id`. -/
theorem C10_otid_equals_entry_id (genStep : Nat → String) (i : Nat)
    (msgMap : GoFields) :
    ∃ t, transformEntry genStep i (.obj msgMap) = some t ∧
      t.getField "otid" = some (goGet msgMap "id") ∧
      t.getField "id" = some (goGet msgMap "id") := by
  obtain ⟨fs, hfs, hget⟩ := transformEntry_fields genStep i msgMap
  refine ⟨.obj fs, hfs, ?_, ?_⟩
  · show getKey fs "otid" = _
    rw [hget "otid" (by decide) (by decide) (by decide) (by decide) (by decide)
      (by decide) (by decide)]
    rfl
  · show getKey fs "id" = _
    rw [hget "id" (by decide) (by decide) (by decide) (by decide) (by decide)
      (by decide) (by decide)]
    rfl

/-- C6: role-to-message-type mapping: `human`, a missing key, a non-string
tag and unrecognised tags all give `user_message`; `ai` gives
`assistant_message` unless a non-empty tool-call list is present, in which
case `tool_call_message` with the `toolCall` triple taken from the first
tool call; `tool` gives `tool_return_message`. -/
theorem C6_message_type_mapping (msgMap : GoFields) :
    (getKey msgMap "type" = some (.str "human") →
      mapMessageType msgMap = "user_message") ∧
    (getKey msgMap "type" = none →
      mapMessageType msgMap = "user_message") ∧
    (∀ v, getKey msgMap "type" = some v → (∀ s, v ≠ .str s) →
      mapMessageType msgMap = "user_message") ∧
    (∀ t, getKey msgMap "type" = some (.str t) → t ≠ "human" → t ≠ "ai" →
      t ≠ "tool" → mapMessageType msgMap = "user_message") ∧
    (getKey msgMap "type" = some (.str "ai") →
      (∀ l, getKey msgMap "tool_calls" = some (.arr l) → l = []) →
      mapMessageType msgMap = "assistant_message") ∧
    (∀ tc rest, getKey msgMap "type" = some (.str "ai") →
      getKey msgMap "tool_calls" = some (.arr (tc :: rest)) →
      mapMessageType msgMap = "tool_call_message" ∧
      ∀ tcf genStep i, tc = .obj tcf →
        ∃ fs, transformEntry genStep i (.obj msgMap) = some (.obj fs) ∧
          getKey fs "tool_call" = some (.obj
            [("name", goGet tcf "name"), ("arguments", goGet tcf "args"),
             ("tool_call_id", goGet tcf "id")])) ∧
    (getKey msgMap "type" = some (.str "tool") →
      mapMessageType msgMap = "tool_return_message") := by
  refine ⟨?_, ?_, ?_, ?_, ?_, ?_, ?_⟩
  · intro h
    simp [mapMessageType, h]
  · intro h
    simp [mapMessageType, h]
  · intro v h hne
    unfold mapMessageType
    rw [h]
    rcases v with _ | b | n | q | s | xs | fs
    · rfl
    · rfl
    · rfl
    · rfl
    · exact absurd rfl (hne s)
    · rfl
    · rfl
  · intro t h h1 h2 h3
    simp [mapMessageType, h, h1, h2, h3]
  · intro h hl
    unfold mapMessageType
    rw [h]
    simp only [reduceIte]
    rcases htc : getKey msgMap "tool_calls" with _ | v
    · rfl
    · rcases v with _ | b | n | q | s | xs | fs
      · rfl
      · rfl
      · rfl
      · rfl
      · rfl
      · have := hl xs htc
        subst this
        rfl
      · rfl
  · intro tc rest h htc
    have hmt : mapMessageType msgMap = "tool_call_message" := by
      simp [mapMessageType, h, htc]
    refine ⟨hmt, ?_⟩
    rintro tcf genStep i rfl
    unfold transformEntry
    dsimp only
    rw [hmt, htc]
    simp only [reduceIte]
    exact ⟨_, rfl, getKey_setKey_self _ _ _⟩
  · intro h
    simp [mapMessageType, h]

/-- Witness for C6 on concrete entries of every role shape. -/
theorem C6_message_type_mapping_witness :
    mapMessageType [("type", .str "human")] = "user_message" ∧
    mapMessageType [("content", .str "x")] = "user_message" ∧
    mapMessageType [("type", .int 3)] = "user_message" ∧
    mapMessageType [("type", .str "weird")] = "user_message" ∧
    mapMessageType [("type", .str "ai")] = "assistant_message" ∧
    mapMessageType [("type", .str "ai"), ("tool_calls", .arr [])] =
      "assistant_message" ∧
    (mapMessageType [("type", .str "ai"),
        ("tool_calls", .arr [.obj [("name", .str "f"), ("args", .obj []),
          ("id", .str "tc1")]])] = "tool_call_message" ∧
      ∃ fs, transformEntry (fun _ => "s") 0
          (.obj [("type", .str "ai"),
            ("tool_calls", .arr [.obj [("name", .str "f"), ("args", .obj []),
              ("id", .str "tc1")]])]) = some (.obj fs) ∧
        getKey fs "tool_call" = some (.obj
          [("name", .str "f"), ("arguments", .obj []),
           ("tool_call_id", .str "tc1")])) ∧
    mapMessageType [("type", .str "tool")] = "tool_return_message" := by
  have h7 := (C6_message_type_mapping [("type", .str "ai"),
      ("tool_calls", .arr [.obj [("name", .str "f"), ("args", .obj []),
        ("id", .str "tc1")]])]).2.2.2.2.2.1
    (.obj [("name", .str "f"), ("args", .obj []), ("id", .str "tc1")]) []
    rfl rfl
  refine ⟨(C6_message_type_mapping [("type", .str "human")]).1 rfl,
    (C6_message_type_mapping [("content", .str "x")]).2.1 rfl,
    (C6_message_type_mapping [("type", .int 3)]).2.2.1 (.int 3) rfl
      (by intro s h; cases h),
    (C6_message_type_mapping [("type", .str "weird")]).2.2.2.1 "weird" rfl
      (by decide) (by decide) (by decide),
    (C6_message_type_mapping [("type", .str "ai")]).2.2.2.2.1 rfl
      (by intro l h; cases h),
    (C6_message_type_mapping [("type", .str "ai"),
        ("tool_calls", .arr [])]).2.2.2.2.1 rfl ?_,
    ⟨h7.1, h7.2 _ (fun _ => "s") 0 rfl⟩,
    (C6_message_type_mapping [("type", .str "tool")]).2.2.2.2.2.2 rfl⟩
  intro l h
  rw [show getKey [("type", GoVal.str "ai"),
      ("tool_calls", GoVal.arr [])] "tool_calls" = some (.arr []) from rfl]
    at h
  cases h
  rfl

/-- C9 counterexample: an entry of role `tool` that lacks a `name` key is
mapped to `tool_return_message`, yet its transformed message carries none of
the tool-return fields the claim promises. -/
theorem C9_counterexample_no_name_key :
    mapMessageType [("type", .str "tool"), ("content", .str "x"),
      ("tool_call_id", .str "y")] = "tool_return_message" ∧
    ∃ t, transformEntry (fun _ => "s") 0
        (.obj [("type", .str "tool"), ("content", .str "x"),
          ("tool_call_id", .str "y")]) = some t ∧
      t.getField "tool_return" = none ∧
      t.getField "status" = none ∧
      t.getField "stdout" = none ∧
      t.getField "stderr" = none :=
  ⟨rfl, _, rfl, rfl, rfl, rfl, rfl⟩

/-- C9 (amended): every entry mapped to `tool_return_message` that carries a
`name` key yields a transformed message with `toolReturn` equal to the
entry's content, `status` `"success"`, `toolCallID` equal to the entry's
`tool_call_id` value, and null `stdout`/`stderr`. -/
theorem C9_tool_return_fields (genStep : Nat → String) (i : Nat)
    (msgMap : GoFields) (name : GoVal)
    (hmt : mapMessageType msgMap = "tool_return_message")
    (hname : getKey msgMap "name" = some name) :
    ∃ fs, transformEntry genStep i (.obj msgMap) = some (.obj fs) ∧
      getKey fs "tool_return" = some (goGet msgMap "content") ∧
      getKey fs "status" = some (.str "success") ∧
      getKey fs "tool_call_id" = some (goGet msgMap "tool_call_id") ∧
      getKey fs "stdout" = some .null ∧
      getKey fs "stderr" = some .null ∧
      getKey fs "name" = some name := by
  unfold transformEntry
  dsimp only
  rw [hmt, hname]
  simp only [reduceIte]
  rw [if_neg (show ¬("tool_return_message" = "tool_call_message") by decide)]
  refine ⟨_, rfl, ?_, ?_, ?_, ?_, ?_, ?_⟩
  · rw [getKey_setKey_ne _ _ (by decide), getKey_setKey_ne _ _ (by decide),
      getKey_setKey_ne _ _ (by decide), getKey_setKey_ne _ _ (by decide),
      getKey_setKey_ne _ _ (by decide), getKey_setKey_self]
  · rw [getKey_setKey_ne _ _ (by decide), getKey_setKey_ne _ _ (by decide),
      getKey_setKey_ne _ _ (by decide), getKey_setKey_ne _ _ (by decide),
      getKey_setKey_self]
  · rw [getKey_setKey_ne _ _ (by decide), getKey_setKey_ne _ _ (by decide),
      getKey_setKey_ne _ _ (by decide), getKey_setKey_self]
  · rw [getKey_setKey_ne _ _ (by decide), getKey_setKey_ne _ _ (by decide),
      getKey_setKey_self]
  · rw [getKey_setKey_ne _ _ (by decide), getKey_setKey_self]
  · rw [getKey_setKey_self]

/-- Witness for C9's amended theorem on a complete tool entry. -/
theorem C9_tool_return_fields_witness :
    ∃ fs, transformEntry (fun _ => "s") 0
        (.obj [("type", .str "tool"), ("name", .str "calc"),
          ("content", .str "42"), ("tool_call_id", .str "tc9")]) =
      some (.obj fs) ∧
      getKey fs "tool_return" = some (.str "42") ∧
      getKey fs "status" = some (.str "success") ∧
      getKey fs "tool_call_id" = some (.str "tc9") ∧
      getKey fs "stdout" = some .null ∧
      getKey fs "stderr" = some .null ∧
      getKey fs "name" = some (.str "calc") :=
  C9_tool_return_fields (fun _ => "s") 0
    [("type", .str "tool"), ("name", .str "calc"),
     ("content", .str "42"), ("tool_call_id", .str "tc9")]
    (.str "calc") rfl rfl

/-- C8: the Content Formatter Gate invokes the formatting capability only
for messages whose content is a non-empty string; on a formatting error the
message keeps its original content; an absent capability passes every
message through unchanged; and no field other than `content` is touched. -/
theorem C8_formatting_gate (formatter : Option MessageFormatter)
    (messages : List GoVal) :
    (formatter = none →
      applyWhatsAppFormattingToMessages formatter messages = (messages, [])) ∧
    (∀ f, formatter = some f →
      (∀ ev ∈ (applyWhatsAppFormattingToMessages formatter messages).2,
        ∃ m ∈ messages, ∃ fs c, m = .obj fs ∧
          getKey fs "content" = some (.str c) ∧ c ≠ "" ∧
          ev = .formatCall c) ∧
      (applyWhatsAppFormattingToMessages formatter messages).1 =
        messages.map (fun m => (formatOne f m).1) ∧
      (∀ fs c e, getKey fs "content" = some (.str c) → c ≠ "" →
        f.formatForWhatsApp ⟨c, "temp", "temp"⟩ = .error e →
        (formatOne f (.obj fs)).1.getField "content" = some (.str c)) ∧
      (∀ m k, k ≠ "content" →
        (formatOne f m).1.getField k = m.getField k)) := by
  refine ⟨?_, ?_⟩
  · rintro rfl
    rfl
  · rintro f rfl
    refine ⟨?_, formatMessages_fst f messages, ?_, ?_⟩
    · intro ev hev
      obtain ⟨m, hm, hev'⟩ := formatMessages_trace hev
      obtain ⟨fs, c, rfl, hc, hne, rfl⟩ := formatOne_trace hev'
      exact ⟨.obj fs, hm, fs, c, rfl, hc, hne, rfl⟩
    · intro fs c e hc hne herr
      have : (formatOne f (.obj fs)).1 =
          .obj (setKey fs "content" (.str c)) := by
        simp [formatOne, hc, hne, herr]
      rw [this]
      exact getKey_setKey_self _ _ _
    · exact fun m k hk => formatOne_getField_ne f m k hk

/-- Witness for C8: one message formats successfully, one keeps its content
on a formatter error, a contentless record passes through, and other fields
are untouched; with no formatter everything passes through. -/
theorem C8_formatting_gate_witness :
    applyWhatsAppFormattingToMessages none
      [.obj [("content", .str "hi")]] = ([.obj [("content", .str "hi")]], []) ∧
    (applyWhatsAppFormattingToMessages
        (some ⟨fun r => if r.content = "hi" then .ok "*hi*" else .error "boom",
          fun _ => "", fun _ => none⟩)
        [.obj [("content", .str "hi")], .obj [("content", .str "bad")],
         .obj [("message_type", .str "usage_statistics")]]).1 =
      [.obj [("content", .str "*hi*")], .obj [("content", .str "bad")],
       .obj [("message_type", .str "usage_statistics")]] ∧
    (formatOne
        ⟨fun r => if r.content = "hi" then .ok "*hi*" else .error "boom",
          fun _ => "", fun _ => none⟩
        (.obj [("content", .str "bad")])).1.getField "content" =
      some (.str "bad") ∧
    (formatOne
        ⟨fun r => if r.content = "hi" then .ok "*hi*" else .error "boom",
          fun _ => "", fun _ => none⟩
        (.obj [("id", .str "m1"), ("content", .str "hi")])).1.getField "id" =
      some (.str "m1") := by
  refine ⟨(C8_formatting_gate none [.obj [("content", .str "hi")]]).1 rfl,
    ?_, ?_, ?_⟩
  · rw [(C8_formatting_gate _ _).2
      ⟨fun r => if r.content = "hi" then .ok "*hi*" else .error "boom",
        fun _ => "", fun _ => none⟩ rfl |>.2.1]
    rfl
  · exact (C8_formatting_gate (some ⟨fun r =>
        if r.content = "hi" then .ok "*hi*" else .error "boom",
        fun _ => "", fun _ => none⟩) []).2 _ rfl |>.2.2.1
      [("content", .str "bad")] "bad" "boom" rfl (by decide) rfl
  · exact (C8_formatting_gate (some ⟨fun r =>
        if r.content = "hi" then .ok "*hi*" else .error "boom",
        fun _ => "", fun _ => none⟩) []).2 _ rfl |>.2.2.2
      (.obj [("id", .str "m1"), ("content", .str "hi")]) "id" (by decide)

theorem getKey_intOverwrite_ne (fs : GoFields) (key : String)
    (v : Option GoVal) {k : String} (h : k ≠ key) :
    getKey (intOverwrite fs key v) k = getKey fs k := by
  unfold intOverwrite
  split
  · exact getKey_setKey_ne _ _ h
  · rfl

theorem getKey_intOverwrite_self (fs : GoFields) (key : String)
    (v : Option GoVal) :
    getKey (intOverwrite fs key v) key =
      match v with
      | some (.int n) => some (.float n)
      | _ => getKey fs key := by
  unfold intOverwrite
  split
  · rw [getKey_setKey_self]
  · rfl

theorem getKey_nestedIntOverwrite_ne (fs : GoFields) (key : String)
    (um : GoFields) (outerKey innerKey : String) {k : String} (h : k ≠ key) :
    getKey (nestedIntOverwrite fs key um outerKey innerKey) k =
      getKey fs k := by
  unfold nestedIntOverwrite
  split
  · exact getKey_intOverwrite_ne _ _ _ h
  · rfl

theorem getKey_nestedIntOverwrite_self (fs : GoFields) (key : String)
    (um : GoFields) (outerKey innerKey : String) :
    getKey (nestedIntOverwrite fs key um outerKey innerKey) key =
      (nestedIntField um outerKey innerKey).or (getKey fs key) := by
  unfold nestedIntOverwrite nestedIntField
  split
  · rw [getKey_intOverwrite_self]
    split <;> rfl
  · rfl

theorem extractUsageMetadata_spec (msgMap rm um : GoFields)
    (hrm : getKey msgMap "response_metadata" = some (.obj rm))
    (hum : getKey rm "usage_metadata" = some (.obj um)) :
    ∃ res, extractUsageMetadata msgMap = .obj res ∧
      getKey res "prompt_token_count" =
        some (floatify (goGet um "input_tokens")) ∧
      getKey res "candidates_token_count" =
        some (floatify (goGet um "output_tokens")) ∧
      getKey res "total_token_count" =
        some (floatify (goGet um "total_tokens")) ∧
      getKey res "thoughts_token_count" =
        nestedIntField um "output_token_details" "reasoning" ∧
      getKey res "cached_content_token_count" =
        nestedIntField um "input_token_details" "cache_read" ∧
      (∀ k, k ≠ "prompt_token_count" → k ≠ "candidates_token_count" →
        k ≠ "total_token_count" → k ≠ "thoughts_token_count" →
        k ≠ "cached_content_token_count" → getKey res k = none) := by
  unfold extractUsageMetadata
  rw [hrm]
  dsimp only
  rw [hum]
  dsimp only
  refine ⟨_, rfl, ?_, ?_, ?_, ?_, ?_, ?_⟩
  · rw [getKey_intOverwrite_ne _ _ _ (by decide),
        getKey_intOverwrite_ne _ _ _ (by decide),
        getKey_intOverwrite_self,
        getKey_nestedIntOverwrite_ne _ _ _ _ _ (by decide),
        getKey_nestedIntOverwrite_ne _ _ _ _ _ (by decide)]
    rcases hx : getKey um "input_tokens" with _ | v
    · simp [goGet, hx, getKey]
      rfl
    · rcases v <;> simp [goGet, hx, floatify, getKey]
  · rw [getKey_intOverwrite_ne _ _ _ (by decide),
        getKey_intOverwrite_self,
        getKey_intOverwrite_ne _ _ _ (by decide),
        getKey_nestedIntOverwrite_ne _ _ _ _ _ (by decide),
        getKey_nestedIntOverwrite_ne _ _ _ _ _ (by decide)]
    rcases hx : getKey um "output_tokens" with _ | v
    · simp [goGet, hx, getKey]
      rfl
    · rcases v <;> simp [goGet, hx, floatify, getKey]
  · rw [getKey_intOverwrite_self,
        getKey_intOverwrite_ne _ _ _ (by decide),
        getKey_intOverwrite_ne _ _ _ (by decide),
        getKey_nestedIntOverwrite_ne _ _ _ _ _ (by decide),
        getKey_nestedIntOverwrite_ne _ _ _ _ _ (by decide)]
    rcases hx : getKey um "total_tokens" with _ | v
    · simp [goGet, hx, getKey]
      rfl
    · rcases v <;> simp [goGet, hx, floatify, getKey]
  · rw [getKey_intOverwrite_ne _ _ _ (by decide),
        getKey_intOverwrite_ne _ _ _ (by decide),
        getKey_intOverwrite_ne _ _ _ (by decide),
        getKey_nestedIntOverwrite_ne _ _ _ _ _ (by decide),
        getKey_nestedIntOverwrite_self]
    rw [show getKey [("prompt_token_count", goGet um "input_tokens"),
        ("candidates_token_count", goGet um "output_tokens"),
        ("total_token_count", goGet um "total_tokens")]
        "thoughts_token_count" = none from rfl]
    rcases nestedIntField um "output_token_details" "reasoning" <;> rfl
  · rw [getKey_intOverwrite_ne _ _ _ (by decide),
        getKey_intOverwrite_ne _ _ _ (by decide),
        getKey_intOverwrite_ne _ _ _ (by decide),
        getKey_nestedIntOverwrite_self,
        getKey_nestedIntOverwrite_ne _ _ _ _ _ (by decide)]
    rw [show getKey [("prompt_token_count", goGet um "input_tokens"),
        ("candidates_token_count", goGet um "output_tokens"),
        ("total_token_count", goGet um "total_tokens")]
        "cached_content_token_count" = none from rfl]
    rcases nestedIntField um "input_token_details" "cache_read" <;> rfl
  · intro k hk1 hk2 hk3 hk4 hk5
    rw [getKey_intOverwrite_ne _ _ _ hk3, getKey_intOverwrite_ne _ _ _ hk2,
        getKey_intOverwrite_ne _ _ _ hk1,
        getKey_nestedIntOverwrite_ne _ _ _ _ _ hk5,
        getKey_nestedIntOverwrite_ne _ _ _ _ _ hk4]
    simp only [getKey]
    rw [if_neg (fun h => hk1 h.symm), if_neg (fun h => hk2 h.symm),
        if_neg (fun h => hk3 h.symm)]

theorem floatify_ne_int (v : GoVal) (n : Int) : floatify v ≠ .int n := by
  cases v <;> simp [floatify]

theorem floatify_eq_self {v : GoVal} (h : ∀ n, v ≠ .int n) :
    floatify v = v := by
  cases v
  case int n => exact absurd rfl (h n)
  all_goals rfl

theorem nestedIntField_ne_int (um : GoFields) (outerKey innerKey : String)
    (n : Int) : nestedIntField um outerKey innerKey ≠ some (.int n) := by
  unfold nestedIntField
  split
  · split <;> simp
  · simp

/-- C5 counterexample: with `output_token_details.reasoning` and
`input_token_details.cache_read` present as floats (the only numeric kind
`encoding/json` produces), neither `thoughts_token_count` nor
`cached_content_token_count` is emitted, refuting "emits ... whenever those
source fields are present"; the record itself is produced (its renamed
top-level fields are there). -/
theorem C5_counterexample_float_details_dropped :
    (extractUsageMetadata [("response_metadata", .obj [("usage_metadata",
        .obj [("input_tokens", .float 3), ("output_tokens", .float 4),
              ("total_tokens", .float 7),
              ("output_token_details", .obj [("reasoning", .float 5)]),
              ("input_token_details", .obj [("cache_read", .float 6)])])])]
      ).getField "thoughts_token_count" = none ∧
    (extractUsageMetadata [("response_metadata", .obj [("usage_metadata",
        .obj [("input_tokens", .float 3), ("output_tokens", .float 4),
              ("total_tokens", .float 7),
              ("output_token_details", .obj [("reasoning", .float 5)]),
              ("input_token_details", .obj [("cache_read", .float 6)])])])]
      ).getField "cached_content_token_count" = none ∧
    (extractUsageMetadata [("response_metadata", .obj [("usage_metadata",
        .obj [("input_tokens", .float 3), ("output_tokens", .float 4),
              ("total_tokens", .float 7),
              ("output_token_details", .obj [("reasoning", .float 5)]),
              ("input_token_details", .obj [("cache_read", .float 6)])])])]
      ).getField "prompt_token_count" = some (.float 3) :=
  ⟨rfl, rfl, rfl⟩

/-- C5 (amended): the projection renames `input_tokens`, `output_tokens`
and `total_tokens` to `prompt_token_count`, `candidates_token_count` and
`total_token_count`, converting each value to floating point exactly when it
is of integer kind and passing it through otherwise; the nested
`output_token_details.reasoning` and `input_token_details.cache_read` are
emitted as `thoughts_token_count` / `cached_content_token_count` only when
the source value is of integer kind (converted to float) and are omitted
otherwise; no field of the projected record is ever of integer kind. -/
theorem C5_usage_metadata_projection (msgMap rm um : GoFields)
    (hrm : getKey msgMap "response_metadata" = some (.obj rm))
    (hum : getKey rm "usage_metadata" = some (.obj um)) :
    ∃ res, extractUsageMetadata msgMap = .obj res ∧
      getKey res "prompt_token_count" =
        some (floatify (goGet um "input_tokens")) ∧
      getKey res "candidates_token_count" =
        some (floatify (goGet um "output_tokens")) ∧
      getKey res "total_token_count" =
        some (floatify (goGet um "total_tokens")) ∧
      (∀ od n, getKey um "output_token_details" = some (.obj od) →
        getKey od "reasoning" = some (.int n) →
        getKey res "thoughts_token_count" = some (.float n)) ∧
      (∀ od v, getKey um "output_token_details" = some (.obj od) →
        getKey od "reasoning" = some v → (∀ n, v ≠ .int n) →
        getKey res "thoughts_token_count" = none) ∧
      (∀ idt n, getKey um "input_token_details" = some (.obj idt) →
        getKey idt "cache_read" = some (.int n) →
        getKey res "cached_content_token_count" = some (.float n)) ∧
      (∀ idt v, getKey um "input_token_details" = some (.obj idt) →
        getKey idt "cache_read" = some v → (∀ n, v ≠ .int n) →
        getKey res "cached_content_token_count" = none) ∧
      (∀ k n, getKey res k ≠ some (.int n)) := by
  obtain ⟨res, hres, h1, h2, h3, h4, h5, h6⟩ :=
    extractUsageMetadata_spec msgMap rm um hrm hum
  refine ⟨res, hres, h1, h2, h3, ?_, ?_, ?_, ?_, ?_⟩
  · intro od n hod hr
    rw [h4]
    simp [nestedIntField, hod, hr]
  · intro od v hod hr hni
    rw [h4]
    simp only [nestedIntField, hod, hr]
    rcases v with _ | b | n | q | s | xs | fs
    · rfl
    · rfl
    · exact absurd rfl (hni n)
    · rfl
    · rfl
    · rfl
    · rfl
  · intro idt n hidt hc
    rw [h5]
    simp [nestedIntField, hidt, hc]
  · intro idt v hidt hc hni
    rw [h5]
    simp only [nestedIntField, hidt, hc]
    rcases v with _ | b | n | q | s | xs | fs
    · rfl
    · rfl
    · exact absurd rfl (hni n)
    · rfl
    · rfl
    · rfl
    · rfl
  · intro k n hk
    by_cases e1 : k = "prompt_token_count"
    · subst e1
      rw [h1] at hk
      exact floatify_ne_int _ n (Option.some.inj hk)
    by_cases e2 : k = "candidates_token_count"
    · subst e2
      rw [h2] at hk
      exact floatify_ne_int _ n (Option.some.inj hk)
    by_cases e3 : k = "total_token_count"
    · subst e3
      rw [h3] at hk
      exact floatify_ne_int _ n (Option.some.inj hk)
    by_cases e4 : k = "thoughts_token_count"
    · subst e4
      rw [h4] at hk
      exact nestedIntField_ne_int um "output_token_details" "reasoning" n hk
    by_cases e5 : k = "cached_content_token_count"
    · subst e5
      rw [h5] at hk
      exact nestedIntField_ne_int um "input_token_details" "cache_read" n hk
    rw [h6 k e1 e2 e3 e4 e5] at hk
    cases hk

/-- Witness for C5's amended theorem: integer-kind fields are converted to
floats, float-kind detail fields are dropped. -/
theorem C5_usage_metadata_projection_witness :
    ∃ res, extractUsageMetadata [("response_metadata", .obj
        [("usage_metadata", .obj
          [("input_tokens", .int 3), ("output_tokens", .float 4),
           ("output_token_details", .obj [("reasoning", .int 5)]),
           ("input_token_details", .obj [("cache_read", .float 6)])])])] =
      .obj res ∧
      getKey res "prompt_token_count" = some (.float ((3 : Int) : ℚ)) ∧
      getKey res "candidates_token_count" = some (.float 4) ∧
      getKey res "total_token_count" = some .null ∧
      getKey res "thoughts_token_count" = some (.float ((5 : Int) : ℚ)) ∧
      getKey res "cached_content_token_count" = none ∧
      (∀ k n, getKey res k ≠ some (.int n)) := by
  obtain ⟨res, hres, h1, h2, h3, h4, h5, h6, h7, h8⟩ :=
    C5_usage_metadata_projection
      [("response_metadata", .obj
        [("usage_metadata", .obj
          [("input_tokens", .int 3), ("output_tokens", .float 4),
           ("output_token_details", .obj [("reasoning", .int 5)]),
           ("input_token_details", .obj [("cache_read", .float 6)])])])]
      [("usage_metadata", .obj
        [("input_tokens", .int 3), ("output_tokens", .float 4),
         ("output_token_details", .obj [("reasoning", .int 5)]),
         ("input_token_details", .obj [("cache_read", .float 6)])])]
      [("input_tokens", .int 3), ("output_tokens", .float 4),
       ("output_token_details", .obj [("reasoning", .int 5)]),
       ("input_token_details", .obj [("cache_read", .float 6)])]
      rfl rfl
  refine ⟨res, hres, ?_, ?_, ?_, ?_, ?_, h8⟩
  · rw [h1]
    rfl
  · rw [h2]
    rfl
  · rw [h3]
    rfl
  · exact h4 [("reasoning", .int 5)] 5 rfl rfl
  · exact h7 [("cache_read", .float 6)] (.float 6) rfl rfl
      (fun n h => by cases h)

theorem goTrim_eq_rdropWhile (l : List Char) :
    goTrim l = List.rdropWhile goIsSpace (List.dropWhile goIsSpace l) := rfl

theorem mem_goTrim {c : Char} {l : List Char} (h : c ∈ goTrim l) : c ∈ l := by
  rw [goTrim_eq_rdropWhile] at h
  exact (List.dropWhile_suffix goIsSpace).sublist.subset
    ((List.rdropWhile_prefix goIsSpace _).sublist.subset h)

theorem cleanPayload_no_crlf (s : String) :
    ∀ c ∈ (cleanPayload s).data, c ≠ '\n' ∧ c ≠ '\r' := by
  intro c hc
  have hmem : c ∈ (s.data.filter fun c => c != '\n').filter
      fun c => c != '\r' := mem_goTrim hc
  have h2 := List.of_mem_filter hmem
  have h1 := List.of_mem_filter (List.mem_of_mem_filter hmem)
  constructor
  · simpa using h1
  · simpa using h2

theorem cleanPayload_trimmed_left (s : String) :
    (cleanPayload s).data.dropWhile goIsSpace = (cleanPayload s).data := by
  show List.dropWhile goIsSpace (goTrim _) = goTrim _
  rw [goTrim_eq_rdropWhile, List.dropWhile_eq_self_iff]
  intro hl
  have hpre := List.rdropWhile_prefix goIsSpace
    (List.dropWhile goIsSpace ((s.data.filter fun c => c != '\n').filter
      fun c => c != '\r'))
  have hlen : 0 < (List.dropWhile goIsSpace
      ((s.data.filter fun c => c != '\n').filter fun c => c != '\r')).length :=
    lt_of_lt_of_le hl hpre.length_le
  have hz := List.dropWhile_get_zero_not goIsSpace
    ((s.data.filter fun c => c != '\n').filter fun c => c != '\r') hlen
  rw [List.get_eq_getElem] at hz ⊢
  rw [hpre.getElem hl]
  exact hz

theorem cleanPayload_trimmed_right (s : String) :
    List.rdropWhile goIsSpace (cleanPayload s).data =
      (cleanPayload s).data := by
  show List.rdropWhile goIsSpace (goTrim _) = goTrim _
  rw [goTrim_eq_rdropWhile]
  exact List.rdropWhile_idempotent _ _

theorem processUserMessage_eq_of_stages {deps : Deps} {msg : QueueMessage}
    {engine : GoogleAgentEngine} {threadID : String} {resp : AgentResponse}
    (hp : msg.provider = "google_agent_engine")
    (hg : deps.googleAgent = some engine)
    (hv : validateContent deps.formatter
      (resolveMessageText deps.transcribe msg.message).1 = none)
    (ht : engine.getOrCreateThread msg.userNumber = .ok threadID)
    (hs : engine.sendMessage threadID
      (resolveMessageText deps.transcribe msg.message).1 = .ok resp) :
    processUserMessage msg deps =
      ((parseAndBuild deps msg resp.content).1,
       (resolveMessageText deps.transcribe msg.message).2.2 ++
         [.getThread msg.userNumber,
          .sendMsg threadID (resolveMessageText deps.transcribe msg.message).1]
         ++ (parseAndBuild deps msg resp.content).2) := by
  unfold processUserMessage
  rw [if_neg (by simp [hp]), hg]
  dsimp only
  rw [hv]
  dsimp only
  rw [ht]
  dsimp only
  rw [hs]

theorem parseAndBuild_ok {deps : Deps} {msg : QueueMessage} {content : String}
    {parsed outputMap : GoFields}
    (hj : deps.jparse (cleanPayload content) = some (.obj parsed))
    (ho : getKey parsed "output" = some (.obj outputMap)) :
    parseAndBuild deps msg content =
      (.ok (buildProcessedData deps msg (getKey outputMap "messages")).1,
       (buildProcessedData deps msg (getKey outputMap "messages")).2) := by
  unfold parseAndBuild
  dsimp only
  rw [hj]
  dsimp only
  rw [ho]

theorem parseAndBuild_error_iff (deps : Deps) (msg : QueueMessage)
    (content : String) :
    (∃ e, (parseAndBuild deps msg content).1 = .error e) ↔
      ¬ ∃ parsed outputMap,
        deps.jparse (cleanPayload content) = some (.obj parsed) ∧
        getKey parsed "output" = some (.obj outputMap) := by
  rcases hj : deps.jparse (cleanPayload content) with _ | v
  · constructor
    · rintro - ⟨p, o, hj2, ho2⟩
      cases hj2
    · rintro -
      exact ⟨"failed to parse AI response JSON",
        by simp [parseAndBuild, hj]⟩
  · rcases v with _ | b | n | q | s | xs | fs
    case obj =>
      rcases ho : getKey fs "output" with _ | w
      · constructor
        · rintro - ⟨p, o, hj2, ho2⟩
          obtain rfl := (GoVal.obj.inj (Option.some.inj hj2)).symm
          rw [ho] at ho2
          cases ho2
        · rintro -
          exact ⟨"invalid Google Agent Engine response format - missing 'output' field",
            by simp [parseAndBuild, hj, ho]⟩
      · rcases w with _ | b | n | q | s | xs | ofs
        case obj =>
          constructor
          · rintro ⟨e, he⟩
            rw [parseAndBuild_ok hj ho] at he
            simp at he
          · intro hno
            exact absurd ⟨fs, ofs, rfl, ho⟩ hno
        all_goals
          constructor
          · rintro - ⟨p, o, hj2, ho2⟩
            obtain rfl := (GoVal.obj.inj (Option.some.inj hj2)).symm
            rw [ho] at ho2
            simp at ho2
          · rintro -
            exact ⟨"invalid Google Agent Engine response format - 'output' is not an object",
              by simp [parseAndBuild, hj, ho]⟩
    all_goals
      constructor
      · rintro - ⟨p, o, hj2, ho2⟩
        simp at hj2
      · rintro -
        exact ⟨"failed to parse AI response JSON",
          by simp [parseAndBuild, hj]⟩

/-- C7: the raw engine payload is cleaned before parsing — every literal
newline and carriage return removed and surrounding white space trimmed (the
cleaned payload is a fixed point of trimming on both sides) — and, once the
engine has replied, the pipeline fails exactly when the cleaned payload does
not decode to a structured object, lacks a top-level `output` field, or has
a non-object `output`; on such a failure no result is written and status
becomes `failed`. -/
theorem C7_clean_then_parse_failure (deps : Deps) (msg : QueueMessage)
    (engine : GoogleAgentEngine) (threadID : String) (resp : AgentResponse)
    (hp : msg.provider = "google_agent_engine")
    (hg : deps.googleAgent = some engine)
    (hv : validateContent deps.formatter
      (resolveMessageText deps.transcribe msg.message).1 = none)
    (ht : engine.getOrCreateThread msg.userNumber = .ok threadID)
    (hs : engine.sendMessage threadID
      (resolveMessageText deps.transcribe msg.message).1 = .ok resp) :
    (∀ s, ∀ c ∈ (cleanPayload s).data, c ≠ '\n' ∧ c ≠ '\r') ∧
    (∀ s, (cleanPayload s).data.dropWhile goIsSpace = (cleanPayload s).data) ∧
    (∀ s, List.rdropWhile goIsSpace (cleanPayload s).data =
      (cleanPayload s).data) ∧
    ((∃ e, (processUserMessage msg deps).1 = .error e) ↔
      ¬ ∃ parsed outputMap,
        deps.jparse (cleanPayload resp.content) = some (.obj parsed) ∧
        getKey parsed "output" = some (.obj outputMap)) ∧
    (∀ e, (processUserMessage msg deps).1 = .error e →
      (createUserMessageHandler deps (.ok msg)).resultWrite = none ∧
      (createUserMessageHandler deps (.ok msg)).statusWrites =
        [.processing, .failed]) := by
  refine ⟨cleanPayload_no_crlf, cleanPayload_trimmed_left,
    cleanPayload_trimmed_right, ?_, ?_⟩
  · rw [show (processUserMessage msg deps).1 =
        (parseAndBuild deps msg resp.content).1 from
      by rw [processUserMessage_eq_of_stages hp hg hv ht hs]]
    exact parseAndBuild_error_iff deps msg resp.content
  · intro e he
    constructor
    · simp [createUserMessageHandler, he]
    · simp [createUserMessageHandler, he]

/-- Witness for C7: a payload the decoder rejects makes the pipeline fail,
write no result, and set status `failed`. -/
theorem C7_clean_then_parse_failure_witness :
    (∃ e, (processUserMessage
        ⟨"id7", "u7", "hello", none, "google_agent_engine", "t"⟩
        ⟨some ⟨fun _ => .ok "t1", fun _ _ => .ok ⟨"nonsense", "m", "t1"⟩⟩,
         none, none, fun _ => none, fun _ => "s", "now"⟩).1 = .error e) ∧
    (createUserMessageHandler
        ⟨some ⟨fun _ => .ok "t1", fun _ _ => .ok ⟨"nonsense", "m", "t1"⟩⟩,
         none, none, fun _ => none, fun _ => "s", "now"⟩
        (.ok ⟨"id7", "u7", "hello", none, "google_agent_engine", "t"⟩)
      ).resultWrite = none ∧
    (createUserMessageHandler
        ⟨some ⟨fun _ => .ok "t1", fun _ _ => .ok ⟨"nonsense", "m", "t1"⟩⟩,
         none, none, fun _ => none, fun _ => "s", "now"⟩
        (.ok ⟨"id7", "u7", "hello", none, "google_agent_engine", "t"⟩)
      ).statusWrites = [.processing, .failed] := by
  obtain ⟨h1, h2, h3, h4, h5⟩ := C7_clean_then_parse_failure
    ⟨some ⟨fun _ => .ok "t1", fun _ _ => .ok ⟨"nonsense", "m", "t1"⟩⟩,
     none, none, fun _ => none, fun _ => "s", "now"⟩
    ⟨"id7", "u7", "hello", none, "google_agent_engine", "t"⟩
    ⟨fun _ => .ok "t1", fun _ _ => .ok ⟨"nonsense", "m", "t1"⟩⟩
    "t1" ⟨"nonsense", "m", "t1"⟩ rfl rfl rfl rfl rfl
  obtain ⟨e, he⟩ := h4.mpr (by rintro ⟨p, o, hj, -⟩; simp at hj)
  exact ⟨⟨e, he⟩, (h5 e he).1, (h5 e he).2⟩

theorem transformGoogleAgentMessages_eq (genStep : Nat → String)
    (now : String) {mv : GoVal} (hmv : mv ≠ .null) :
    ∃ xs, transformGoogleAgentMessages genStep now mv =
      transformEntries genStep 0 xs ++
        [usageStatsObj now (transformEntries genStep 0 xs).length] := by
  cases mv with
  | null => exact absurd rfl hmv
  | bool b => exact ⟨[.bool b], rfl⟩
  | int n => exact ⟨[.int n], rfl⟩
  | float q => exact ⟨[.float q], rfl⟩
  | str s => exact ⟨[.str s], rfl⟩
  | arr xs => exact ⟨xs, rfl⟩
  | obj fs => exact ⟨[.obj fs], rfl⟩

theorem formatOne_stamped_usage (f : MessageFormatter)
    (agentID now : String) (n : Nat) :
    formatOne f (stampOne agentID (usageStatsObj now n)) =
      (stampOne agentID (usageStatsObj now n), []) := rfl

theorem mem_transformEntries_message_type {genStep : Nat → String} {i : Nat}
    {xs : List GoVal} {m : GoVal} (h : m ∈ transformEntries genStep i xs) :
    m.getField "message_type" ≠ some (.str "usage_statistics") := by
  obtain ⟨j, msgMap, hj⟩ := mem_transformEntries h
  obtain ⟨fs, hfs, hmt⟩ := transformEntry_message_type genStep j msgMap
  rw [hj] at hfs
  obtain rfl := (Option.some.inj hfs).symm
  intro hcon
  replace hcon : getKey fs "message_type" = some (.str "usage_statistics") :=
    hcon
  rw [hmt] at hcon
  simp only [Option.some.injEq, GoVal.str.injEq] at hcon
  exact mapMessageType_ne_usage_statistics msgMap hcon

theorem buildProcessedData_none (deps : Deps) (msg : QueueMessage) :
    (buildProcessedData deps msg none).1.messages = [] := by
  rcases hf : deps.formatter with _ | f <;>
    simp [buildProcessedData, applyWhatsAppFormattingToMessages, hf,
      stampLast, formatMessages]

theorem buildProcessedData_null (deps : Deps) (msg : QueueMessage) :
    (buildProcessedData deps msg (some .null)).1.messages = [] := by
  rcases hf : deps.formatter with _ | f <;>
    simp [buildProcessedData, applyWhatsAppFormattingToMessages, hf,
      transformGoogleAgentMessages, stampLast, formatMessages]

theorem buildProcessedData_usage_trailing (deps : Deps) (msg : QueueMessage)
    {mv : GoVal} (hmv : mv ≠ .null) :
    ∃ front us,
      (buildProcessedData deps msg (some mv)).1.messages = front ++ [us] ∧
      us.getField "message_type" = some (.str "usage_statistics") ∧
      us.getField "step_count" = some (.int front.length) ∧
      us.getField "completion_tokens" = some (.int 0) ∧
      us.getField "prompt_tokens" = some (.int 0) ∧
      us.getField "total_tokens" = some (.int 0) ∧
      us.getField "status" = some (.str "done") ∧
      us.getField "model_names" = some (.arr []) ∧
      us.getField "agent_id" = some (.str ("user_" ++ msg.userNumber)) ∧
      ∀ m ∈ front, m.getField "message_type" ≠
        some (.str "usage_statistics") := by
  obtain ⟨xs, hx⟩ :=
    transformGoogleAgentMessages_eq deps.genStep deps.now hmv
  rcases hf : deps.formatter with _ | f
  · refine ⟨transformEntries deps.genStep 0 xs,
      stampOne ("user_" ++ msg.userNumber)
        (usageStatsObj deps.now (transformEntries deps.genStep 0 xs).length),
      ?_, rfl, rfl, rfl, rfl, rfl, rfl, rfl, rfl, ?_⟩
    · show (buildProcessedData deps msg (some mv)).1.messages = _
      simp only [buildProcessedData]
      rw [hx, hf]
      rw [stampLast_append]
      rfl
    · exact fun m hm => mem_transformEntries_message_type hm
  · refine ⟨(transformEntries deps.genStep 0 xs).map
        (fun m => (formatOne f m).1),
      stampOne ("user_" ++ msg.userNumber)
        (usageStatsObj deps.now (transformEntries deps.genStep 0 xs).length),
      ?_, rfl, ?_, rfl, rfl, rfl, rfl, rfl, rfl, ?_⟩
    · show (buildProcessedData deps msg (some mv)).1.messages = _
      simp only [buildProcessedData]
      rw [hx, hf]
      rw [stampLast_append]
      show (formatMessages f _).1 = _
      rw [formatMessages_fst, List.map_append]
      rw [show (List.map (fun m => (formatOne f m).1)
          [stampOne ("user_" ++ msg.userNumber)
            (usageStatsObj deps.now
              (transformEntries deps.genStep 0 xs).length)]) =
        [stampOne ("user_" ++ msg.userNumber)
          (usageStatsObj deps.now
            (transformEntries deps.genStep 0 xs).length)] from rfl]
    · rw [List.length_map]
      rfl
    · intro m hm
      obtain ⟨m₀, hm₀, rfl⟩ := List.mem_map.mp hm
      rw [formatOne_getField_ne f m₀ _ (by decide)]
      exact mem_transformEntries_message_type hm₀

/-- C3 counterexample: a successfully processed message whose engine output
has no `messages` field yields an empty final message sequence — no trailing
usage-statistics record exists, contrary to the claim's "including the case
where the engine output has no messages field". -/
theorem C3_counterexample_missing_messages_field :
    ∃ pd, (processUserMessage
        ⟨"id1", "u1", "hello", none, "google_agent_engine", "t"⟩
        ⟨some ⟨fun _ => .ok "t1", fun _ _ => .ok ⟨"X", "m1", "t1"⟩⟩,
         none, none,
         fun s => if s = "X" then some (.obj [("output", .obj [])]) else none,
         fun _ => "s", "now"⟩).1 = .ok pd ∧
      pd.messages = [] :=
  ⟨_, rfl, rfl⟩

/-- C3 (amended): when the engine output carries a non-null `messages`
value, the final sequence of a successfully processed message is the
transformed messages followed by exactly one trailing usage-statistics
record whose `step_count` equals the number of preceding messages, token
counters zero, status `"done"` and empty `model_names` (and no preceding
message is a usage-statistics record); when the `messages` field is absent
or null, the final sequence is empty, with no usage-statistics record at
all. -/
theorem C3_usage_statistics_record (deps : Deps) (msg : QueueMessage)
    (engine : GoogleAgentEngine) (threadID : String) (resp : AgentResponse)
    (parsed outputMap : GoFields)
    (hp : msg.provider = "google_agent_engine")
    (hg : deps.googleAgent = some engine)
    (hv : validateContent deps.formatter
      (resolveMessageText deps.transcribe msg.message).1 = none)
    (ht : engine.getOrCreateThread msg.userNumber = .ok threadID)
    (hs : engine.sendMessage threadID
      (resolveMessageText deps.transcribe msg.message).1 = .ok resp)
    (hj : deps.jparse (cleanPayload resp.content) = some (.obj parsed))
    (ho : getKey parsed "output" = some (.obj outputMap)) :
    (∀ mv, getKey outputMap "messages" = some mv → mv ≠ .null →
      ∃ pd front us, (processUserMessage msg deps).1 = .ok pd ∧
        pd.messages = front ++ [us] ∧
        us.getField "message_type" = some (.str "usage_statistics") ∧
        us.getField "step_count" = some (.int front.length) ∧
        us.getField "completion_tokens" = some (.int 0) ∧
        us.getField "prompt_tokens" = some (.int 0) ∧
        us.getField "total_tokens" = some (.int 0) ∧
        us.getField "status" = some (.str "done") ∧
        us.getField "model_names" = some (.arr []) ∧
        ∀ m ∈ front, m.getField "message_type" ≠
          some (.str "usage_statistics")) ∧
    (getKey outputMap "messages" = none →
      ∃ pd, (processUserMessage msg deps).1 = .ok pd ∧ pd.messages = []) ∧
    (getKey outputMap "messages" = some .null →
      ∃ pd, (processUserMessage msg deps).1 = .ok pd ∧ pd.messages = []) := by
  have hfst : (processUserMessage msg deps).1 =
      .ok (buildProcessedData deps msg (getKey outputMap "messages")).1 := by
    rw [processUserMessage_eq_of_stages hp hg hv ht hs]
    show (parseAndBuild deps msg resp.content).1 = _
    rw [parseAndBuild_ok hj ho]
  refine ⟨?_, ?_, ?_⟩
  · intro mv hm hmv
    rw [hm] at hfst
    obtain ⟨front, us, hmsgs, h1, h2, h3, h4, h5, h6, h7, _, h9⟩ :=
      buildProcessedData_usage_trailing deps msg hmv
    exact ⟨_, front, us, hfst, hmsgs, h1, h2, h3, h4, h5, h6, h7, h9⟩
  · intro hm
    rw [hm] at hfst
    exact ⟨_, hfst, buildProcessedData_none deps msg⟩
  · intro hm
    rw [hm] at hfst
    exact ⟨_, hfst, buildProcessedData_null deps msg⟩

/-- Witness for C3's amended theorem: the end-to-end scenario with two
engine messages yields two transformed messages and one trailing
usage-statistics record with `step_count` 2. -/
theorem C3_usage_statistics_record_witness :
    ∃ pd front us,
      (processUserMessage
        ⟨"id3", "u3", "hello", none, "google_agent_engine", "t"⟩
        ⟨some ⟨fun _ => .ok "t1", fun _ _ => .ok ⟨"X", "m1", "t1"⟩⟩,
         none, none,
         fun s => if s = "X" then
           some (.obj [("output", .obj [("messages", .arr
             [.obj [("type", .str "human"), ("content", .str "hello")],
              .obj [("type", .str "ai"), ("content", .str "hi")]])])])
           else none,
         fun _ => "s", "now"⟩).1 = .ok pd ∧
      pd.messages = front ++ [us] ∧
      us.getField "message_type" = some (.str "usage_statistics") ∧
      us.getField "step_count" = some (.int front.length) ∧
      us.getField "completion_tokens" = some (.int 0) ∧
      us.getField "prompt_tokens" = some (.int 0) ∧
      us.getField "total_tokens" = some (.int 0) ∧
      us.getField "status" = some (.str "done") ∧
      us.getField "model_names" = some (.arr []) ∧
      ∀ m ∈ front, m.getField "message_type" ≠
        some (.str "usage_statistics") :=
  (C3_usage_statistics_record
    ⟨some ⟨fun _ => .ok "t1", fun _ _ => .ok ⟨"X", "m1", "t1"⟩⟩,
     none, none,
     fun s => if s = "X" then
       some (.obj [("output", .obj [("messages", .arr
         [.obj [("type", .str "human"), ("content", .str "hello")],
          .obj [("type", .str "ai"), ("content", .str "hi")]])])])
       else none,
     fun _ => "s", "now"⟩
    ⟨"id3", "u3", "hello", none, "google_agent_engine", "t"⟩
    ⟨fun _ => .ok "t1", fun _ _ => .ok ⟨"X", "m1", "t1"⟩⟩
    "t1" ⟨"X", "m1", "t1"⟩
    [("output", .obj [("messages", .arr
      [.obj [("type", .str "human"), ("content", .str "hello")],
       .obj [("type", .str "ai"), ("content", .str "hi")]])])]
    [("messages", .arr
      [.obj [("type", .str "human"), ("content", .str "hello")],
       .obj [("type", .str "ai"), ("content", .str "hi")]])]
    rfl rfl rfl rfl rfl rfl rfl).1
    (.arr [.obj [("type", .str "human"), ("content", .str "hello")],
           .obj [("type", .str "ai"), ("content", .str "hi")]])
    rfl (fun h => GoVal.noConfusion h)

end AiGateway
